import Mathlib

/-!
Verification of the URL probe scanner (two variants: `modified_script.py` and
the resumable `wm_script.py`) against its natural-language specification.

Modelling conventions, used throughout:
* Calendar dates are represented by their proleptic-Gregorian ordinal
  (Python's `datetime.toordinal`): ordinal 1 is 0001-01-01.  `datetime`
  comparison is the ordinal order and `+ timedelta(days=1)` is `+ 1`.
  `strftime("%Y%m%d")` is `dateStr`, computed through the standard
  civil-from-days algorithm.
* A six-digit `HHMMSS` argument string is represented by its parsed fields
  `HMS` (each field is the two-digit slice `int(t[0:2])` etc., so each is
  `< 100` by construction).
* Python's f-string `f"{n:02d}"` is `fmt2`, faithful on `n < 100`, the only
  range at which the scripts use it (hours, minutes, seconds, months, days).
* Wall-clock readings and the cross-thread `should_stop` flag are oracles
  indexed by poll points; network responses are an oracle per target.
-/

/-- The character for a single decimal digit `d < 10` (as in Python's
zero-padded decimal formatting). -/
def digitChar (d : Nat) : Char := Char.ofNat (48 + d)

/-- Numeric value of a decimal digit character. -/
def charVal (c : Char) : Nat := c.toNat - 48

/-- Python `f"{n:02d}"`, the two-digit zero-padded rendering, faithful for
`n < 100` (the scripts only format hours/minutes/seconds/months/days). -/
def fmt2 (n : Nat) : String := String.mk [digitChar (n / 10), digitChar (n % 10)]

/-- Python `f"{n:04d}"` / `%Y`, the four-digit zero-padded rendering,
faithful for `n < 10000`. -/
def fmt4 (n : Nat) : String :=
  String.mk [digitChar (n / 1000), digitChar (n / 100 % 10), digitChar (n / 10 % 10), digitChar (n % 10)]

/-- The `HHMMSS` string built from a second-of-day, exactly as in
`generate_time_numbers`: `f"{hour:02d}{minute:02d}{second:02d}"` with
`hour = sec // 3600`, `minute = (sec % 3600) // 60`, `second = sec % 60`. -/
def timeCode (sec : Nat) : String :=
  fmt2 (sec / 3600) ++ fmt2 (sec % 3600 / 60) ++ fmt2 (sec % 60)

/-- Decode a six-character `HHMMSS` string back to its second-of-day
(left inverse of `timeCode` on the valid range, used to state ordering). -/
def decodeTime (s : String) : Nat :=
  match s.data with
  | [c1, c2, c3, c4, c5, c6] =>
      (charVal c1 * 10 + charVal c2) * 3600 +
      (charVal c3 * 10 + charVal c4) * 60 +
      (charVal c5 * 10 + charVal c6)
  | _ => 0

/-- Convert a Python `datetime.toordinal` value to a civil `(year, month, day)`
triple (standard civil-from-days computation, proleptic Gregorian). -/
def civilFromOrdinal (o : Nat) : Nat × Nat × Nat :=
  let z := o + 305
  let era := z / 146097
  let doe := z % 146097
  let yoe := (doe - doe / 1460 + doe / 36524 - doe / 146096) / 365
  let y := yoe + era * 400
  let doy := doe - (365 * yoe + yoe / 4 - yoe / 100)
  let mp := (5 * doy + 2) / 153
  let d := doy - (153 * mp + 2) / 5 + 1
  let m := if mp < 10 then mp + 3 else mp - 9
  (if m ≤ 2 then y + 1 else y, m, d)

/-- Python `date.strftime("%Y%m%d")` on the date with the given ordinal. -/
def dateStr (o : Nat) : String :=
  let c := civilFromOrdinal o
  fmt4 c.1 ++ fmt2 c.2.1 ++ fmt2 c.2.2

/-- The parsed fields of a six-digit `HHMMSS` command-line argument:
`h = int(t[0:2])`, `m = int(t[2:4])`, `s = int(t[4:6])` (each `< 100` by
construction from two digit characters). -/
structure HMS where
  h : Nat
  m : Nat
  s : Nat
deriving DecidableEq, Repr

/-- The second-of-day denoted by an `HMS`: `h*3600 + m*60 + s`, exactly the
expression computed at the top of `generate_time_numbers`. -/
def HMS.toSec (t : HMS) : Nat := t.h * 3600 + t.m * 60 + t.s

/-- Model of `validate_time` (modified_script.py lines 62-78): range-checks the parsed
hour, minute and second fields and returns the normalised value.  (The length
and all-digits checks of the source act on the raw string and are discharged
by the `HMS` parse itself.) -/
def validate_time (t : HMS) : Except String HMS :=
  if 23 < t.h then Except.error "小时超出范围"
  else if 59 < t.m then Except.error "分钟无效"
  else if 59 < t.s then Except.error "秒数无效"
  else Except.ok t

/-- Model of `validate_date_range` (modified_script.py lines 48-60): rejects an
inverted date range.  The February re-check in the source loop can never
fire, because `datetime` values are calendar-valid by construction, so it is
a no-op on ordinals. -/
def validate_date_range (startDate endDate : Nat) : Except String Unit :=
  if startDate > endDate then Except.error "结束日期不能早于开始日期"
  else Except.ok ()

/-- Model of `generate_time_numbers` (both scripts): computes the start and end
second-of-day, raises when inverted, otherwise formats every second in the
inclusive range as `HHMMSS`. -/
def generate_time_numbers (st et : HMS) : Except String (List String) :=
  let start_sec := st.toSec
  let end_sec := et.toSec
  if start_sec > end_sec then Except.error "每日结束时间不能早于开始时间"
  else Except.ok ((List.range' start_sec (end_sec + 1 - start_sec)).map timeCode)

/-- The task list built by `main` of modified_script.py (lines 182-191): for
each date of the inclusive range, one task per generated time number, dates
outermost.  The first component is the date ordinal (the source stores the
file head `f"{base}_{date}"`, determined by the ordinal through `dateStr`). -/
def generate_tasks (sd ed : Nat) (time_numbers : List String) : List (Nat × String) :=
  (List.range' sd (ed + 1 - sd)).flatMap (fun d => time_numbers.map (fun tn => (d, tn)))

/-- The date × second grid underlying the task list (proof helper). -/
def prodTasks (a n b m : Nat) : List (Nat × Nat) :=
  (List.range' a n).flatMap (fun d => (List.range' b m).map (fun s => (d, s)))

/-- Model of `generate_wm_url` / `generate_url` (identical in both scripts):
`f"https://{domain}{path}{filehead}{time_str}_0.opt"`. -/
def generate_wm_url (domain path filehead time_str : String) : String :=
  "https://" ++ domain ++ path ++ filehead ++ time_str ++ "_0.opt"

/-- Outcome of the underlying HEAD transport for one target: an HTTP status
line, or a `requests.exceptions.RequestException` (connection-level error). -/
inductive ProbeResp where
  | status (code : Nat)
  | exn (kind : String)
deriving DecidableEq, Repr

/-- What one `check_link` call (modified_script.py lines 129-153) does:
its return value, the URL it appends to `VALID_LINKS` (if any), and whether
the HEAD request was issued at all. -/
structure CheckLinkOutcome where
  ret : Bool
  append : Option String
  probed : Bool
deriving DecidableEq, Repr

/-- Model of `check_link` (modified_script.py): returns `False` without probing when
the stop flag is observed; otherwise issues the HEAD request; appends the URL
and returns `True` exactly on status 200; any other status returns `False`;
a `RequestException` is caught and returns `False` (the function is total:
no outcome escapes the worker). -/
def check_link (shouldStop : Bool) (url : String) (resp : ProbeResp) : CheckLinkOutcome :=
  if shouldStop then ⟨false, none, false⟩
  else
    match resp with
    | ProbeResp.status code =>
        if code == 200 then ⟨true, some url, true⟩ else ⟨false, none, true⟩
    | ProbeResp.exn _ => ⟨false, none, true⟩

/-- What one `check_wm_link` call (wm_script.py lines 93-106) does: the value
it returns to the collector (`url` on 200, else falsy, modelled `none`), and
whether the HEAD request was issued. -/
structure CheckOutcome where
  result : Option String
  probed : Bool
deriving DecidableEq, Repr

/-- Model of `check_wm_link` (wm_script.py): returns `False` without probing when the
stop flag is observed; otherwise issues the HEAD request and returns the URL
on status 200, `None` on any other status or on a caught
`RequestException` (both falsy, modelled as `none`). -/
def check_wm_link (shouldStop : Bool) (url : String) (resp : ProbeResp) : CheckOutcome :=
  if shouldStop then ⟨none, false⟩
  else
    match resp with
    | ProbeResp.status code => ⟨if code == 200 then some url else none, true⟩
    | ProbeResp.exn _ => ⟨none, true⟩

/-- The `urllib3 Retry` configuration constructed by `create_retry_session`
(backoff factor kept in tenths of a second). -/
structure RetryPolicy where
  total : Nat
  backoff_factor_tenths : Nat
  status_forcelist : List Nat
  allowed_methods : List String
deriving Repr

/-- wm_script.py lines 75-91: `Retry(total=3, backoff_factor=0.5,
status_forcelist=tuple(range(500, 600)), allowed_methods=["HEAD"])`. -/
def wm_retry_policy : RetryPolicy :=
  ⟨3, 5, List.range' 500 100, ["HEAD"]⟩

/-- modified_script.py lines 96-111: `Retry(total=3, backoff_factor=0.3,
status_forcelist=[500, 502, 503, 504], allowed_methods=["HEAD"])`. -/
def modified_retry_policy : RetryPolicy :=
  ⟨3, 3, [500, 502, 503, 504], ["HEAD"]⟩

/-- Whether `urllib3 Retry` considers one attempt's outcome retryable: a
connection-level error always is; an HTTP status is retryable exactly when it
is in `status_forcelist` (the probes use the allowed method HEAD).  Models
the documented behavior of the external `urllib3.util.retry.Retry`. -/
def retryable (p : RetryPolicy) (r : ProbeResp) : Bool :=
  match r with
  | ProbeResp.exn _ => true
  | ProbeResp.status code => p.status_forcelist.contains code

/-- Number of HTTP attempts a session with the given policy performs, given
the outcome of each successive attempt: a non-retryable outcome stops
immediately; a retryable one consumes one of the `total` allowed retries
(`Retry(total=n)` allows `n` retries after the first attempt, so up to
`n + 1` requests).  Models the documented behavior of `urllib3` retries. -/
def retrySteps (p : RetryPolicy) (responses : Nat → ProbeResp) : Nat → Nat → Nat
  | 0, i => i + 1
  | r + 1, i =>
      if retryable p (responses i) = false then i + 1
      else retrySteps p responses r (i + 1)

/-- Total attempts for a fresh request under policy `p`. -/
def attemptsMade (p : RetryPolicy) (responses : Nat → ProbeResp) : Nat :=
  retrySteps p responses p.total 0

/-- Final outcome surfaced to the caller: the first non-retryable response,
or `none` when all retries are exhausted on retryable outcomes (urllib3
raises `MaxRetryError`, surfaced by requests as a `RequestException`). -/
def retryOutcome (p : RetryPolicy) (responses : Nat → ProbeResp) : Nat → Nat → Option ProbeResp
  | 0, i => if retryable p (responses i) = false then some (responses i) else none
  | r + 1, i =>
      if retryable p (responses i) = false then some (responses i)
      else retryOutcome p responses r (i + 1)

/-- Model of `TimeoutGuard.remaining_time` (wm_script.py lines 40-41):
`max_runtime - (time.time() - start_time)`, with the elapsed reading passed
in explicitly. -/
def remaining_time (max_runtime elapsed : Int) : Int := max_runtime - elapsed

/-- Model of `TimeoutGuard.check_timeout` (wm_script.py lines 43-44): true when fewer
than 300 seconds of the budget remain. -/
def check_timeout (max_runtime elapsed : Int) : Bool :=
  remaining_time max_runtime elapsed < 300

/-- Oracles describing one run of wm_script.py's `process_date_range`:
the cross-thread `should_stop` flag and the guard's `check_timeout` answer
at each successive poll point, the flag value each worker observes and the
transport outcome for each `(date, second)` target, the order in which a
date's futures complete (`as_completed`), and the configuration strings. -/
structure WmEnv where
  stop : Nat → Bool
  tmo : Nat → Bool
  wstop : Nat → Nat → Bool
  resp : Nat → Nat → ProbeResp
  order : Nat → List Nat
  domain : String
  path : String
  base : String

/-- The URL probed for target `(d, sec)`: the file head is
`f"{base}_{date}"` and the time string is `timeCode sec`. -/
def wmUrl (env : WmEnv) (d sec : Nat) : String :=
  generate_wm_url env.domain env.path (env.base ++ "_" ++ dateStr d) (timeCode sec)

/-- Result of one date's `as_completed` collection loop: the targets whose
results were incorporated, the URLs appended to `VALID_LINKS` (in completion
order), and the poll counter afterwards. -/
structure BatchResult where
  collected : List Nat
  links : List String
  clockAfter : Nat
deriving Repr

/-- The collection loop of wm_script.py lines 133-140: each `as_completed`
iteration first polls `should_stop or check_timeout` (one poll tick); on
either it shuts the executor down and breaks; otherwise it takes the next
completed future's `check_wm_link` result and appends truthy results to
`VALID_LINKS`. -/
def collectBatch (env : WmEnv) (d : Nat) : List Nat → Nat → BatchResult
  | [], clock => ⟨[], [], clock⟩
  | sec :: rest, clock =>
      if env.stop clock || env.tmo clock then ⟨[], [], clock + 1⟩
      else
        let c := check_wm_link (env.wstop d sec) (wmUrl env d sec) (env.resp d sec)
        let r := collectBatch env d rest (clock + 1)
        ⟨sec :: r.collected,
         (match c.result with
          | some u => u :: r.links
          | none => r.links),
         r.clockAfter⟩

/-- Everything observable about one `process_date_range` run: the targets
submitted to an executor, the targets whose results were collected, the
final `VALID_LINKS` contents, the checkpoint-file writes performed by
`save_progress` (formatted `YYYYMMDD`, in order), and the returned date or
the exception that propagated. -/
structure WmTrace where
  submitted : List (Nat × Nat)
  collected : List (Nat × Nat)
  valid : List String
  saves : List String
  ret : Except String Nat
deriving Repr

/-- The `while current_date <= end_date and not should_stop` loop of
wm_script.py lines 121-144.  Each iteration: evaluate the condition (one
`should_stop` poll, skipped by short-circuit when the date bound fails);
`check_timeout` at the top of the body — when true, `save_progress` the
current date and break; call `generate_time_numbers` (its `ValueError`
propagates); submit one future per time number; run the collection loop;
advance one day.  `fuel` bounds the iteration count and is instantiated to
`ed + 1 - current`, making the zero-fuel case coincide with loop exit. -/
def wmLoop (env : WmEnv) (st et : HMS) (ed : Nat) : Nat → Nat → Nat → WmTrace
  | 0, current, _ => ⟨[], [], [], [], Except.ok current⟩
  | fuel + 1, current, clock =>
      if ed < current then ⟨[], [], [], [], Except.ok current⟩
      else if env.stop clock then ⟨[], [], [], [], Except.ok current⟩
      else if env.tmo (clock + 1) then ⟨[], [], [], [dateStr current], Except.ok current⟩
      else
        match generate_time_numbers st et with
        | Except.error e => ⟨[], [], [], [], Except.error e⟩
        | Except.ok _ =>
            let secs := List.range' st.toSec (et.toSec + 1 - st.toSec)
            let b := collectBatch env current (env.order current) (clock + 2)
            let r := wmLoop env st et ed fuel (current + 1) b.clockAfter
            ⟨secs.map (fun s => (current, s)) ++ r.submitted,
             b.collected.map (fun s => (current, s)) ++ r.collected,
             b.links ++ r.valid,
             r.saves,
             r.ret⟩

/-- The resumption logic at wm_script.py lines 114-119: a stored checkpoint
date strictly later than the requested start overrides it.  `resume` is the
parsed content of the resume file (`strptime` of the stored `YYYYMMDD`),
`none` when the file does not exist. -/
def effectiveStart (sd : Nat) (resume : Option Nat) : Nat :=
  match resume with
  | some r => if sd < r then r else sd
  | none => sd

/-- Model of `process_date_range` (wm_script.py lines 108-144): apply the resumption
override, then run the date loop from poll tick 0. -/
def process_date_range (env : WmEnv) (st et : HMS) (sd ed : Nat) (resume : Option Nat) : WmTrace :=
  let current := effectiveStart sd resume
  wmLoop env st et ed (ed + 1 - current) current 0

/-- Externally visible actions of a `main` invocation, in order. -/
inductive Effect where
  | printMsg (msg : String)
  | writeOutput (content : String)
  | exitCode (c : Nat)
deriving DecidableEq, Repr

/-- Model of `main` of wm_script.py lines 161-173: run `process_date_range` under
`try`; on normal return print the done-or-unfinished message chosen by
`last_processed <= end_date`; on an exception print the error and
`sys.exit(1)`; the `finally` block always writes `"\n".join(VALID_LINKS)`
to the output file (truncating it) — on the error path this happens after
the except clause and before the process exits 1. -/
def wm_main (env : WmEnv) (st et : HMS) (sd ed : Nat) (resume : Option Nat) : List Effect :=
  let tr := process_date_range env st et sd ed resume
  match tr.ret with
  | Except.ok last =>
      (if last ≤ ed then [Effect.printMsg ("部分完成，最后处理日期: " ++ dateStr last)]
       else [Effect.printMsg "扫描全部完成"]) ++
      [Effect.writeOutput (String.intercalate "\n" tr.valid)]
  | Except.error e =>
      [Effect.printMsg ("发生错误: " ++ e),
       Effect.writeOutput (String.intercalate "\n" tr.valid),
       Effect.exitCode 1]

/-- The argument-processing phase of `main` in modified_script.py lines
165-191: `validate_date_range`, `validate_time` on both time arguments,
`generate_time_numbers`, then the task list (the date parses themselves are
modelled by the ordinal representation). -/
def modified_prepare (sd ed : Nat) (st et : HMS) : Except String (List (Nat × String)) :=
  match validate_date_range sd ed with
  | Except.error e => Except.error e
  | Except.ok _ =>
      match validate_time st with
      | Except.error e => Except.error e
      | Except.ok st2 =>
          match validate_time et with
          | Except.error e => Except.error e
          | Except.ok et2 =>
              match generate_time_numbers st2 et2 with
              | Except.error e => Except.error e
              | Except.ok tns => Except.ok (generate_tasks sd ed tns)

/-- Model of `main` of modified_script.py: a `ValueError` from the validation phase
prints the message and calls `sys.exit(1)` before any task exists and before
the output file is touched; otherwise the executor phase runs (interrupts
are caught) and the result file is written exactly once afterwards
(lines 216-217), with the final `VALID_LINKS` contents. -/
def modified_main (prep : Except String (List (Nat × String))) (validLinks : List String) : List Effect :=
  match prep with
  | Except.error e => [Effect.printMsg ("参数错误: " ++ e), Effect.exitCode 1]
  | Except.ok _ => [Effect.writeOutput (String.intercalate "\n" validLinks)]

/-- Number of output-file writes in an effect trace. -/
def countWrites (es : List Effect) : Nat :=
  es.countP (fun e =>
    match e with
    | Effect.writeOutput _ => true
    | _ => false)

lemma charVal_digitChar : ∀ d, d < 10 → charVal (digitChar d) = d := by decide

lemma timeCode_data (s : Nat) :
    (timeCode s).data =
      [digitChar (s / 3600 / 10), digitChar (s / 3600 % 10),
       digitChar (s % 3600 / 60 / 10), digitChar (s % 3600 / 60 % 10),
       digitChar (s % 60 / 10), digitChar (s % 60 % 10)] := by
  simp [timeCode, fmt2, String.data_append]

lemma timeCode_length (s : Nat) : (timeCode s).data.length = 6 := by
  rw [timeCode_data]; rfl

lemma decodeTime_timeCode (s : Nat) (h : s ≤ 86399) : decodeTime (timeCode s) = s := by
  have h1 : s / 3600 / 10 < 10 := by omega
  have h2 : s / 3600 % 10 < 10 := by omega
  have h3 : s % 3600 / 60 / 10 < 10 := by omega
  have h4 : s % 3600 / 60 % 10 < 10 := by omega
  have h5 : s % 60 / 10 < 10 := by omega
  have h6 : s % 60 % 10 < 10 := by omega
  unfold decodeTime
  rw [timeCode_data]
  simp only [charVal_digitChar _ h1, charVal_digitChar _ h2, charVal_digitChar _ h3,
    charVal_digitChar _ h4, charVal_digitChar _ h5, charVal_digitChar _ h6]
  omega

/-- Strict (date, second) lexicographic order on grid points. -/
def pairLT (x y : Nat × Nat) : Prop := x.1 < y.1 ∨ (x.1 = y.1 ∧ x.2 < y.2)

/-- Strict (date, second-of-day) lexicographic order on generated tasks,
reading the second back out of the `HHMMSS` code. -/
def taskLT (x y : Nat × String) : Prop :=
  x.1 < y.1 ∨ (x.1 = y.1 ∧ decodeTime x.2 < decodeTime y.2)

lemma prodTasks_zero (a b m : Nat) : prodTasks a 0 b m = [] := by
  simp [prodTasks]

lemma prodTasks_succ (a n b m : Nat) :
    prodTasks a (n + 1) b m =
      (List.range' b m).map (fun s => (a, s)) ++ prodTasks (a + 1) n b m := by
  simp [prodTasks, List.range'_succ]

lemma prodTasks_length (a n b m : Nat) : (prodTasks a n b m).length = n * m := by
  induction n generalizing a with
  | zero => simp [prodTasks_zero]
  | succ n ih =>
      rw [prodTasks_succ, List.length_append, List.length_map, List.length_range', ih]
      ring

lemma mem_prodTasks {a n b m : Nat} {p : Nat × Nat} :
    p ∈ prodTasks a n b m ↔ a ≤ p.1 ∧ p.1 < a + n ∧ b ≤ p.2 ∧ p.2 < b + m := by
  constructor
  · intro hp
    rw [prodTasks, List.mem_flatMap] at hp
    obtain ⟨d, hd, hp⟩ := hp
    rw [List.mem_map] at hp
    obtain ⟨s, hs, rfl⟩ := hp
    rw [List.mem_range'_1] at hd hs
    exact ⟨hd.1, hd.2, hs.1, hs.2⟩
  · intro ⟨h1, h2, h3, h4⟩
    rw [prodTasks, List.mem_flatMap]
    refine ⟨p.1, ?_, ?_⟩
    · rw [List.mem_range'_1]; exact ⟨h1, h2⟩
    · rw [List.mem_map]
      exact ⟨p.2, by rw [List.mem_range'_1]; exact ⟨h3, h4⟩, rfl⟩

lemma prodTasks_pairwise (a n b m : Nat) : (prodTasks a n b m).Pairwise pairLT := by
  induction n generalizing a with
  | zero => simp [prodTasks_zero]
  | succ n ih =>
      rw [prodTasks_succ, List.pairwise_append]
      refine ⟨?_, ih (a + 1), ?_⟩
      · rw [List.pairwise_map]
        exact (List.pairwise_lt_range' b m).imp (fun h => Or.inr ⟨rfl, h⟩)
      · intro x hx y hy
        rw [List.mem_map] at hx
        obtain ⟨s, _, rfl⟩ := hx
        have hy1 := (mem_prodTasks.mp hy).1
        exact Or.inl (by omega)

lemma pairLT_ne {x y : Nat × Nat} (h : pairLT x y) : x ≠ y := by
  intro heq
  subst heq
  rcases h with h | ⟨_, h⟩ <;> omega

lemma prodTasks_nodup (a n b m : Nat) : (prodTasks a n b m).Nodup :=
  (prodTasks_pairwise a n b m).imp pairLT_ne

lemma generate_tasks_eq (sd ed ss es : Nat) :
    generate_tasks sd ed ((List.range' ss (es + 1 - ss)).map timeCode) =
      (prodTasks sd (ed + 1 - sd) ss (es + 1 - ss)).map (fun p => (p.1, timeCode p.2)) := by
  simp only [generate_tasks, prodTasks, List.map_flatMap, List.map_map]
  rfl

lemma validate_time_ok_bound {t : HMS} (h : validate_time t = Except.ok t) :
    t.toSec ≤ 86399 := by
  unfold validate_time at h
  by_cases h1 : 23 < t.h
  · simp [h1] at h
  · by_cases h2 : 59 < t.m
    · simp [h1, h2] at h
    · by_cases h3 : 59 < t.s
      · simp [h1, h2, h3] at h
      · unfold HMS.toSec; omega

lemma generate_time_numbers_ok {st et : HMS} (h : st.toSec ≤ et.toSec) :
    generate_time_numbers st et =
      Except.ok ((List.range' st.toSec (et.toSec + 1 - st.toSec)).map timeCode) := by
  unfold generate_time_numbers
  rw [if_neg (by omega)]

/-- C1: for every valid input with startDate ≤ endDate and startTime ≤ endTime,
task generation produces exactly `(endDate - startDate + 1) × (endSeconds -
startSeconds + 1)` probe targets, each `(date, time-code)` pair appearing
exactly once (the list has no duplicates), ordered ascending by date and,
within a date, ascending by second-of-day, and every time code is a
zero-padded six-character `HHMMSS` rendering of its second-of-day. -/
theorem C1_task_generation (sd ed : Nat) (st et : HMS)
    (hdate : sd ≤ ed)
    (het : validate_time et = Except.ok et)
    (hts : st.toSec ≤ et.toSec) :
    ∃ tns, generate_time_numbers st et = Except.ok tns ∧
      (generate_tasks sd ed tns).length = (ed - sd + 1) * (et.toSec - st.toSec + 1) ∧
      (generate_tasks sd ed tns).Nodup ∧
      (generate_tasks sd ed tns).Pairwise taskLT ∧
      ∀ p ∈ generate_tasks sd ed tns,
        (p.2).data.length = 6 ∧
        ∃ s, st.toSec ≤ s ∧ s ≤ et.toSec ∧ p.2 = timeCode s ∧ decodeTime p.2 = s := by
  have hbound := validate_time_ok_bound het
  refine ⟨_, generate_time_numbers_ok hts, ?_, ?_, ?_, ?_⟩
  · rw [generate_tasks_eq, List.length_map, prodTasks_length]
    congr 1 <;> omega
  · rw [generate_tasks_eq]
    refine List.Nodup.map_on ?_ (prodTasks_nodup _ _ _ _)
    intro x hx y hy heq
    rw [mem_prodTasks] at hx hy
    rw [Prod.mk.injEq] at heq
    have hx2 : decodeTime (timeCode x.2) = x.2 := decodeTime_timeCode _ (by omega)
    have hy2 : decodeTime (timeCode y.2) = y.2 := decodeTime_timeCode _ (by omega)
    have : x.2 = y.2 := by rw [← hx2, ← hy2, heq.2]
    exact Prod.ext heq.1 this
  · rw [generate_tasks_eq, List.pairwise_map]
    refine List.Pairwise.imp_of_mem ?_ (prodTasks_pairwise _ _ _ _)
    intro x y hx hy hlt
    rw [mem_prodTasks] at hx hy
    rcases hlt with h | ⟨he, hs⟩
    · exact Or.inl h
    · refine Or.inr ⟨he, ?_⟩
      rw [decodeTime_timeCode _ (by omega : x.2 ≤ 86399),
        decodeTime_timeCode _ (by omega : y.2 ≤ 86399)]
      exact hs
  · intro p hp
    rw [generate_tasks_eq, List.mem_map] at hp
    obtain ⟨q, hq, rfl⟩ := hp
    rw [mem_prodTasks] at hq
    refine ⟨timeCode_length _, q.2, hq.2.2.1, by omega, rfl,
      decodeTime_timeCode _ (by omega)⟩

theorem C1_task_generation_witness :
    ∃ tns, generate_time_numbers ⟨0, 0, 1⟩ ⟨0, 0, 3⟩ = Except.ok tns ∧
      (generate_tasks 5 6 tns).length =
        (6 - 5 + 1) * (HMS.toSec ⟨0, 0, 3⟩ - HMS.toSec ⟨0, 0, 1⟩ + 1) ∧
      (generate_tasks 5 6 tns).Nodup ∧
      (generate_tasks 5 6 tns).Pairwise taskLT ∧
      ∀ p ∈ generate_tasks 5 6 tns,
        (p.2).data.length = 6 ∧
        ∃ s, HMS.toSec ⟨0, 0, 1⟩ ≤ s ∧ s ≤ HMS.toSec ⟨0, 0, 3⟩ ∧
          p.2 = timeCode s ∧ decodeTime p.2 = s :=
  C1_task_generation 5 6 ⟨0, 0, 1⟩ ⟨0, 0, 3⟩ (by omega) (by rfl) (by decide)

lemma generate_time_numbers_err {st et : HMS} (h : et.toSec < st.toSec) :
    generate_time_numbers st et = Except.error "每日结束时间不能早于开始时间" := by
  unfold generate_time_numbers
  rw [if_pos (by omega)]

lemma wmLoop_zero (env : WmEnv) (st et : HMS) (ed current clock : Nat) :
    wmLoop env st et ed 0 current clock = ⟨[], [], [], [], Except.ok current⟩ := rfl

lemma wmLoop_exit (env : WmEnv) (st et : HMS) (ed fuel current clock : Nat)
    (h : ed < current) :
    wmLoop env st et ed (fuel + 1) current clock = ⟨[], [], [], [], Except.ok current⟩ := by
  simp only [wmLoop, h, if_true]

lemma wmLoop_stop (env : WmEnv) (st et : HMS) (ed fuel current clock : Nat)
    (h1 : ¬ ed < current) (h2 : env.stop clock = true) :
    wmLoop env st et ed (fuel + 1) current clock = ⟨[], [], [], [], Except.ok current⟩ := by
  simp only [wmLoop, h1, h2, if_false, if_true]

lemma wmLoop_timeout (env : WmEnv) (st et : HMS) (ed fuel current clock : Nat)
    (h1 : ¬ ed < current) (h2 : env.stop clock = false) (h3 : env.tmo (clock + 1) = true) :
    wmLoop env st et ed (fuel + 1) current clock =
      ⟨[], [], [], [dateStr current], Except.ok current⟩ := by
  simp only [wmLoop, h1, h2, h3, if_false, if_true, Bool.false_eq_true]

lemma wmLoop_generr (env : WmEnv) (st et : HMS) (ed fuel current clock : Nat)
    (h1 : ¬ ed < current) (h2 : env.stop clock = false) (h3 : env.tmo (clock + 1) = false)
    (e : String) (hgen : generate_time_numbers st et = Except.error e) :
    wmLoop env st et ed (fuel + 1) current clock = ⟨[], [], [], [], Except.error e⟩ := by
  simp only [wmLoop, h1, h2, h3, hgen, if_false, Bool.false_eq_true]

lemma wmLoop_body (env : WmEnv) (st et : HMS) (ed fuel current clock : Nat)
    (h1 : ¬ ed < current) (h2 : env.stop clock = false) (h3 : env.tmo (clock + 1) = false)
    (tns : List String) (hgen : generate_time_numbers st et = Except.ok tns) :
    wmLoop env st et ed (fuel + 1) current clock =
      ⟨(List.range' st.toSec (et.toSec + 1 - st.toSec)).map (fun s => (current, s)) ++
         (wmLoop env st et ed fuel (current + 1)
           (collectBatch env current (env.order current) (clock + 2)).clockAfter).submitted,
       (collectBatch env current (env.order current) (clock + 2)).collected.map
           (fun s => (current, s)) ++
         (wmLoop env st et ed fuel (current + 1)
           (collectBatch env current (env.order current) (clock + 2)).clockAfter).collected,
       (collectBatch env current (env.order current) (clock + 2)).links ++
         (wmLoop env st et ed fuel (current + 1)
           (collectBatch env current (env.order current) (clock + 2)).clockAfter).valid,
       (wmLoop env st et ed fuel (current + 1)
           (collectBatch env current (env.order current) (clock + 2)).clockAfter).saves,
       (wmLoop env st et ed fuel (current + 1)
           (collectBatch env current (env.order current) (clock + 2)).clockAfter).ret⟩ := by
  simp only [wmLoop, h1, h2, h3, hgen, if_false, Bool.false_eq_true]

lemma wmLoop_submitted_bound (env : WmEnv) (st et : HMS) (ed : Nat) :
    ∀ fuel current clock p, p ∈ (wmLoop env st et ed fuel current clock).submitted →
      current ≤ p.1 ∧ p.1 ≤ ed := by
  intro fuel
  induction fuel with
  | zero =>
      intro current clock p hp
      rw [wmLoop_zero] at hp
      simp at hp
  | succ fuel ih =>
      intro current clock p hp
      by_cases h1 : ed < current
      · rw [wmLoop_exit env st et ed fuel current clock h1] at hp; simp at hp
      · cases h2 : env.stop clock with
        | true => rw [wmLoop_stop env st et ed fuel current clock h1 h2] at hp; simp at hp
        | false =>
            cases h3 : env.tmo (clock + 1) with
            | true =>
                rw [wmLoop_timeout env st et ed fuel current clock h1 h2 h3] at hp
                simp at hp
            | false =>
                cases hgen : generate_time_numbers st et with
                | error e =>
                    rw [wmLoop_generr env st et ed fuel current clock h1 h2 h3 e hgen] at hp
                    simp at hp
                | ok tns =>
                    rw [wmLoop_body env st et ed fuel current clock h1 h2 h3 tns hgen] at hp
                    rw [List.mem_append] at hp
                    rcases hp with hp | hp
                    · rw [List.mem_map] at hp
                      obtain ⟨s, _, rfl⟩ := hp
                      exact ⟨Nat.le_refl _, by omega⟩
                    · have := ih (current + 1) _ p hp
                      omega

lemma wmLoop_saves_nil (env : WmEnv) (st et : HMS) (ed : Nat)
    (htmo : ∀ j, env.tmo j = false) :
    ∀ fuel current clock, (wmLoop env st et ed fuel current clock).saves = [] := by
  intro fuel
  induction fuel with
  | zero => intro current clock; rw [wmLoop_zero]
  | succ fuel ih =>
      intro current clock
      by_cases h1 : ed < current
      · rw [wmLoop_exit env st et ed fuel current clock h1]
      · cases h2 : env.stop clock with
        | true => rw [wmLoop_stop env st et ed fuel current clock h1 h2]
        | false =>
            cases hgen : generate_time_numbers st et with
            | error e => rw [wmLoop_generr env st et ed fuel current clock h1 h2 (htmo _) e hgen]
            | ok tns =>
                rw [wmLoop_body env st et ed fuel current clock h1 h2 (htmo _) tns hgen]
                exact ih (current + 1) _

lemma wmLoop_ret_ok (env : WmEnv) (st et : HMS) (ed : Nat)
    (hts : st.toSec ≤ et.toSec) :
    ∀ fuel current clock, ∃ last, (wmLoop env st et ed fuel current clock).ret = Except.ok last := by
  intro fuel
  induction fuel with
  | zero => intro current clock; exact ⟨current, rfl⟩
  | succ fuel ih =>
      intro current clock
      by_cases h1 : ed < current
      · rw [wmLoop_exit env st et ed fuel current clock h1]; exact ⟨current, rfl⟩
      · cases h2 : env.stop clock with
        | true =>
            rw [wmLoop_stop env st et ed fuel current clock h1 h2]; exact ⟨current, rfl⟩
        | false =>
            cases h3 : env.tmo (clock + 1) with
            | true =>
                rw [wmLoop_timeout env st et ed fuel current clock h1 h2 h3]
                exact ⟨current, rfl⟩
            | false =>
                rw [wmLoop_body env st et ed fuel current clock h1 h2 h3 _
                  (generate_time_numbers_ok hts)]
                exact ih (current + 1) _

/-- A concrete run environment: no interrupt, no timeout, every probe 404s,
no completions delivered. -/
def quietEnv : WmEnv :=
  ⟨fun _ => false, fun _ => false, fun _ _ => false, fun _ _ => ProbeResp.status 404,
   fun _ => [], "example.com", "/p/", "base"⟩

/-- Environment whose stop flag turns on from poll tick 2 (an interrupt
arriving while the first date's batch is being collected). -/
def stopMidEnv : WmEnv :=
  { quietEnv with stop := fun k => decide (2 ≤ k), order := fun _ => [0] }

/-- Environment whose budget guard reports timeout from the start. -/
def timeoutEnv : WmEnv :=
  { quietEnv with tmo := fun _ => true }

/-- C2 counterexample: on the resumable variant, the inverted date range
`start_date = ordinal 2 > end_date = ordinal 1` does not fail with a range
error: `process_date_range` returns normally having submitted nothing, and
`main` prints the all-done message and exits cleanly. -/
theorem C2_counterexample :
    (process_date_range quietEnv ⟨0, 0, 0⟩ ⟨0, 0, 0⟩ 2 1 none).ret = Except.ok 2 ∧
    (process_date_range quietEnv ⟨0, 0, 0⟩ ⟨0, 0, 0⟩ 2 1 none).submitted = [] ∧
    wm_main quietEnv ⟨0, 0, 0⟩ ⟨0, 0, 0⟩ 2 1 none =
      [Effect.printMsg "扫描全部完成", Effect.writeOutput ""] :=
  ⟨rfl, rfl, rfl⟩

/-- C2 (amended): the modified variant rejects an inverted range on either
axis with a range error before any task exists; the resumable variant raises
the time-range error before any probe when at least one date is in range and
neither stop nor timeout fires first, but an inverted date range is not an
error there — the run submits nothing and returns normally. -/
theorem C2_range_validation :
    (∀ sd ed : Nat, ∀ st et : HMS, ed < sd →
       modified_prepare sd ed st et = Except.error "结束日期不能早于开始日期") ∧
    (∀ sd ed : Nat, ∀ st et : HMS, sd ≤ ed →
       validate_time st = Except.ok st → validate_time et = Except.ok et →
       et.toSec < st.toSec →
       modified_prepare sd ed st et = Except.error "每日结束时间不能早于开始时间") ∧
    (∀ env : WmEnv, ∀ st et : HMS, ∀ sd ed : Nat, ∀ resume : Option Nat,
       effectiveStart sd resume ≤ ed → env.stop 0 = false → env.tmo 1 = false →
       et.toSec < st.toSec →
       (process_date_range env st et sd ed resume).ret =
           Except.error "每日结束时间不能早于开始时间" ∧
       (process_date_range env st et sd ed resume).submitted = []) ∧
    (∀ env : WmEnv, ∀ st et : HMS, ∀ sd ed : Nat, ∀ resume : Option Nat,
       ed < effectiveStart sd resume →
       process_date_range env st et sd ed resume =
         ⟨[], [], [], [], Except.ok (effectiveStart sd resume)⟩) := by
  refine ⟨?_, ?_, ?_, ?_⟩
  · intro sd ed st et h
    unfold modified_prepare validate_date_range
    rw [if_pos (by omega)]
  · intro sd ed st et h hst het hts
    unfold modified_prepare validate_date_range
    rw [if_neg (by omega)]
    simp only [hst, het, generate_time_numbers_err hts]
  · intro env st et sd ed resume hle hs ht hts
    simp only [process_date_range]
    have hf : ed + 1 - effectiveStart sd resume = (ed - effectiveStart sd resume) + 1 := by omega
    rw [hf, wmLoop_generr env st et ed _ _ 0 (by omega) hs ht _
      (generate_time_numbers_err hts)]
    exact ⟨rfl, rfl⟩
  · intro env st et sd ed resume h
    simp only [process_date_range]
    have hf : ed + 1 - effectiveStart sd resume = 0 := by omega
    rw [hf, wmLoop_zero]

theorem C2_range_validation_witness :
    modified_prepare 7 3 ⟨0, 0, 0⟩ ⟨0, 0, 0⟩ = Except.error "结束日期不能早于开始日期" :=
  C2_range_validation.1 7 3 ⟨0, 0, 0⟩ ⟨0, 0, 0⟩ (by omega)

/-- C4: a stored checkpoint date strictly later than the requested start
becomes the effective processing start, a stored date not later than the
requested start leaves it unchanged, and every target ever submitted to an
executor has a date at or after the effective start. -/
theorem C4_resumption (env : WmEnv) (st et : HMS) (sd ed : Nat) (resume : Option Nat) :
    (∀ d2, resume = some d2 → sd < d2 → effectiveStart sd resume = d2) ∧
    (∀ d2, resume = some d2 → ¬ sd < d2 → effectiveStart sd resume = sd) ∧
    (resume = none → effectiveStart sd resume = sd) ∧
    ∀ p ∈ (process_date_range env st et sd ed resume).submitted,
      effectiveStart sd resume ≤ p.1 := by
  refine ⟨?_, ?_, ?_, ?_⟩
  · intro d2 hr h; subst hr; simp only [effectiveStart]; rw [if_pos h]
  · intro d2 hr h; subst hr; simp only [effectiveStart]; rw [if_neg h]
  · intro hr; subst hr; rfl
  · intro p hp
    exact (wmLoop_submitted_bound env st et ed _ _ _ p hp).1

theorem C4_resumption_witness :
    effectiveStart 5 (some 10) = 10 :=
  (C4_resumption quietEnv ⟨0, 0, 0⟩ ⟨0, 0, 0⟩ 5 12 (some 10)).1 10 rfl (by omega)

/-- C10: in the resumable variant, a loaded checkpoint date strictly past the
requested end date makes the run submit zero probes, return that date (which
exceeds the end date), report full completion rather than partial, and still
write the (empty) output file. -/
theorem C10_resume_past_end (env : WmEnv) (st et : HMS) (sd ed d2 : Nat)
    (h1 : ed < d2) (h2 : sd < d2) :
    process_date_range env st et sd ed (some d2) = ⟨[], [], [], [], Except.ok d2⟩ ∧
    ed < d2 ∧
    wm_main env st et sd ed (some d2) =
      [Effect.printMsg "扫描全部完成", Effect.writeOutput ""] := by
  have heff : effectiveStart sd (some d2) = d2 := by
    simp only [effectiveStart]; rw [if_pos h2]
  have hproc : process_date_range env st et sd ed (some d2) = ⟨[], [], [], [], Except.ok d2⟩ := by
    simp only [process_date_range]
    rw [heff]
    have hf : ed + 1 - d2 = 0 := by omega
    rw [hf, wmLoop_zero]
  refine ⟨hproc, h1, ?_⟩
  unfold wm_main
  rw [hproc]
  simp only
  rw [if_neg (by omega)]
  rfl

theorem C10_resume_past_end_witness :
    process_date_range quietEnv ⟨0, 0, 0⟩ ⟨0, 0, 0⟩ 3 4 (some 9) =
      ⟨[], [], [], [], Except.ok 9⟩ ∧
    4 < 9 ∧
    wm_main quietEnv ⟨0, 0, 0⟩ ⟨0, 0, 0⟩ 3 4 (some 9) =
      [Effect.printMsg "扫描全部完成", Effect.writeOutput ""] :=
  C10_resume_past_end quietEnv ⟨0, 0, 0⟩ ⟨0, 0, 0⟩ 3 4 9 (by omega) (by omega)

lemma wm_main_write_once (env : WmEnv) (st et : HMS) (sd ed : Nat) (resume : Option Nat) :
    countWrites (wm_main env st et sd ed resume) = 1 ∧
    Effect.writeOutput
        (String.intercalate "\n" (process_date_range env st et sd ed resume).valid) ∈
      wm_main env st et sd ed resume := by
  simp only [wm_main]
  cases h : (process_date_range env st et sd ed resume).ret with
  | ok last =>
      simp only
      by_cases hle : last ≤ ed
      · rw [if_pos hle]
        exact ⟨rfl, by simp⟩
      · rw [if_neg hle]
        exact ⟨rfl, by simp⟩
  | error e =>
      exact ⟨rfl, by simp⟩

/-- C5: when the guard reports fewer than 300 remaining seconds at the top of
a date's batch (while the stop flag is still clear), the scheduler submits no
further batch, performs exactly one checkpoint write holding the current
unprocessed date formatted `YYYYMMDD`, returns that date, and `main` reports
the run as partial. -/
theorem C5_timeout_cutoff (env : WmEnv) (st et : HMS) (sd ed : Nat) (resume : Option Nat)
    (mr el : Int)
    (hcur : effectiveStart sd resume ≤ ed)
    (hstop : env.stop 0 = false)
    (hrem : remaining_time mr el < 300)
    (htmo : env.tmo 1 = check_timeout mr el) :
    (∀ fuel current clock, ¬ ed < current → env.stop clock = false →
       env.tmo (clock + 1) = true →
       wmLoop env st et ed (fuel + 1) current clock =
         ⟨[], [], [], [dateStr current], Except.ok current⟩) ∧
    process_date_range env st et sd ed resume =
      ⟨[], [], [], [dateStr (effectiveStart sd resume)],
        Except.ok (effectiveStart sd resume)⟩ ∧
    Effect.printMsg ("部分完成，最后处理日期: " ++ dateStr (effectiveStart sd resume)) ∈
      wm_main env st et sd ed resume := by
  have htrue : env.tmo 1 = true := by
    rw [htmo]
    exact decide_eq_true hrem
  have hproc : process_date_range env st et sd ed resume =
      ⟨[], [], [], [dateStr (effectiveStart sd resume)],
        Except.ok (effectiveStart sd resume)⟩ := by
    simp only [process_date_range]
    have hf : ed + 1 - effectiveStart sd resume = (ed - effectiveStart sd resume) + 1 := by
      omega
    rw [hf, wmLoop_timeout env st et ed _ _ 0 (by omega) hstop htrue]
  refine ⟨?_, hproc, ?_⟩
  · intro fuel current clock h1 h2 h3
    exact wmLoop_timeout env st et ed fuel current clock h1 h2 h3
  · simp only [wm_main, hproc]
    rw [if_pos hcur]
    simp

theorem C5_timeout_cutoff_witness :
    (∀ fuel current clock, ¬ 738886 < current → timeoutEnv.stop clock = false →
       timeoutEnv.tmo (clock + 1) = true →
       wmLoop timeoutEnv ⟨0, 0, 0⟩ ⟨0, 0, 0⟩ 738886 (fuel + 1) current clock =
         ⟨[], [], [], [dateStr current], Except.ok current⟩) ∧
    process_date_range timeoutEnv ⟨0, 0, 0⟩ ⟨0, 0, 0⟩ 738886 738886 none =
      ⟨[], [], [], [dateStr (effectiveStart 738886 none)],
        Except.ok (effectiveStart 738886 none)⟩ ∧
    Effect.printMsg ("部分完成，最后处理日期: " ++ dateStr (effectiveStart 738886 none)) ∈
      wm_main timeoutEnv ⟨0, 0, 0⟩ ⟨0, 0, 0⟩ 738886 738886 none :=
  C5_timeout_cutoff timeoutEnv ⟨0, 0, 0⟩ ⟨0, 0, 0⟩ 738886 738886 none 0 0
    (by decide) rfl (by decide) rfl

/-- C7 counterexample: an interrupt arriving mid-batch (stop flag on from
poll tick 2, budget never exhausted) makes the run drain and return
normally, and the output file is still written, but the checkpoint file is
never written — the resume date is not persisted, contrary to the claim. -/
theorem C7_counterexample :
    (process_date_range stopMidEnv ⟨0, 0, 0⟩ ⟨0, 0, 0⟩ 738886 738886 none).submitted =
      [(738886, 0)] ∧
    (process_date_range stopMidEnv ⟨0, 0, 0⟩ ⟨0, 0, 0⟩ 738886 738886 none).ret =
      Except.ok 738887 ∧
    (process_date_range stopMidEnv ⟨0, 0, 0⟩ ⟨0, 0, 0⟩ 738886 738886 none).saves = [] ∧
    countWrites (wm_main stopMidEnv ⟨0, 0, 0⟩ ⟨0, 0, 0⟩ 738886 738886 none) = 1 :=
  ⟨rfl, rfl, rfl, rfl⟩

/-- C7 (amended): when an interrupt sets the stop flag mid-run (any stop-flag
behavior, time budget never exhausted, time window well-formed), the run
drains gracefully: it returns normally and the finally block persists the
accumulated validLinks exactly once — but no checkpoint write occurs;
`save_progress` runs only on the time-budget path. -/
theorem C7_interrupt_drain (env : WmEnv) (st et : HMS) (sd ed : Nat) (resume : Option Nat)
    (htmo : ∀ j, env.tmo j = false) (hts : st.toSec ≤ et.toSec) :
    (process_date_range env st et sd ed resume).saves = [] ∧
    (∃ last, (process_date_range env st et sd ed resume).ret = Except.ok last) ∧
    countWrites (wm_main env st et sd ed resume) = 1 ∧
    Effect.writeOutput
        (String.intercalate "\n" (process_date_range env st et sd ed resume).valid) ∈
      wm_main env st et sd ed resume := by
  have hpd : process_date_range env st et sd ed resume =
      wmLoop env st et ed (ed + 1 - effectiveStart sd resume) (effectiveStart sd resume) 0 :=
    rfl
  have hw := wm_main_write_once env st et sd ed resume
  refine ⟨?_, ?_, hw.1, hw.2⟩
  · rw [hpd]
    exact wmLoop_saves_nil env st et ed htmo _ _ _
  · rw [hpd]
    exact wmLoop_ret_ok env st et ed hts _ _ _

theorem C7_interrupt_drain_witness :
    (process_date_range stopMidEnv ⟨0, 0, 0⟩ ⟨0, 0, 0⟩ 738886 738886 none).saves = [] ∧
    (∃ last, (process_date_range stopMidEnv ⟨0, 0, 0⟩ ⟨0, 0, 0⟩ 738886 738886 none).ret =
      Except.ok last) ∧
    countWrites (wm_main stopMidEnv ⟨0, 0, 0⟩ ⟨0, 0, 0⟩ 738886 738886 none) = 1 ∧
    Effect.writeOutput
        (String.intercalate "\n"
          (process_date_range stopMidEnv ⟨0, 0, 0⟩ ⟨0, 0, 0⟩ 738886 738886 none).valid) ∈
      wm_main stopMidEnv ⟨0, 0, 0⟩ ⟨0, 0, 0⟩ 738886 738886 none :=
  C7_interrupt_drain stopMidEnv ⟨0, 0, 0⟩ ⟨0, 0, 0⟩ 738886 738886 none
    (fun _ => rfl) (by decide)

/-- C3 counterexample: on the modified variant, an invocation whose argument
validation fails (inverted time range) exits with an error and performs zero
output-file writes, so the write does not happen on every exit path. -/
theorem C3_counterexample :
    modified_prepare 5 5 ⟨0, 0, 1⟩ ⟨0, 0, 0⟩ =
      Except.error "每日结束时间不能早于开始时间" ∧
    countWrites (modified_main (modified_prepare 5 5 ⟨0, 0, 1⟩ ⟨0, 0, 0⟩) []) = 0 :=
  ⟨rfl, rfl⟩

/-- C3 (amended): the resumable variant writes the full current validLinks
list (newline-joined, truncating the file) exactly once on every exit path —
normal, interrupted, timeout and error alike, via the finally block; the
modified variant writes it exactly once whenever argument validation
succeeds, but a validation failure exits without any output write. -/
theorem C3_result_write (env : WmEnv) (st et : HMS) (sd ed : Nat) (resume : Option Nat)
    (validLinks : List String) :
    countWrites (wm_main env st et sd ed resume) = 1 ∧
    Effect.writeOutput
        (String.intercalate "\n" (process_date_range env st et sd ed resume).valid) ∈
      wm_main env st et sd ed resume ∧
    (∀ tasks : List (Nat × String),
       modified_main (Except.ok tasks) validLinks =
         [Effect.writeOutput (String.intercalate "\n" validLinks)]) ∧
    (∀ e : String, countWrites (modified_main (Except.error e) validLinks) = 0) := by
  have hw := wm_main_write_once env st et sd ed resume
  exact ⟨hw.1, hw.2, fun _ => rfl, fun _ => rfl⟩

theorem C3_result_write_witness :
    countWrites (wm_main quietEnv ⟨0, 0, 0⟩ ⟨0, 0, 0⟩ 3 3 none) = 1 :=
  (C3_result_write quietEnv ⟨0, 0, 0⟩ ⟨0, 0, 0⟩ 3 3 none []).1

lemma collectBatch_no_stop (env : WmEnv) (d : Nat)
    (hstop : ∀ j, env.stop j = false) (htmo : ∀ j, env.tmo j = false) :
    ∀ order clock,
      (collectBatch env d order clock).collected = order ∧
      (collectBatch env d order clock).links = order.filterMap
        (fun s => (check_wm_link (env.wstop d s) (wmUrl env d s) (env.resp d s)).result) := by
  intro order
  induction order with
  | nil => intro clock; exact ⟨rfl, rfl⟩
  | cons sec rest ih =>
      intro clock
      rcases ih (clock + 1) with ⟨h1, h2⟩
      simp only [collectBatch, hstop, htmo, Bool.or_self, Bool.false_eq_true, if_false,
        List.filterMap_cons]
      cases hres : (check_wm_link (env.wstop d sec) (wmUrl env d sec) (env.resp d sec)).result with
      | none => simp [h1, h2]
      | some u => simp [h1, h2]

/-- C8: a URL joins validLinks exactly when its probe returned HTTP 200: on a
clear stop flag, `check_link` appends the URL iff the status is 200 and
`check_wm_link` returns the URL iff the status is 200; HTTP failures and
caught network exceptions yield a negative result with no append and no
exception escaping the worker; and an uninterrupted collection loop
incorporates every completed future — no individual failure aborts the
batch. -/
theorem C8_success_append :
    (∀ url code, (check_link false url (ProbeResp.status code)).append =
        (if code = 200 then some url else none) ∧
      (check_wm_link false url (ProbeResp.status code)).result =
        (if code = 200 then some url else none)) ∧
    (∀ url kind, check_link false url (ProbeResp.exn kind) = ⟨false, none, true⟩ ∧
      check_wm_link false url (ProbeResp.exn kind) = ⟨none, true⟩) ∧
    (∀ env d order clock, (∀ j, env.stop j = false) → (∀ j, env.tmo j = false) →
      (collectBatch env d order clock).collected = order ∧
      (collectBatch env d order clock).links = order.filterMap
        (fun s => (check_wm_link (env.wstop d s) (wmUrl env d s) (env.resp d s)).result)) := by
  refine ⟨?_, ?_, ?_⟩
  · intro url code
    by_cases h : code = 200
    · subst h; exact ⟨rfl, rfl⟩
    · constructor
      · simp [check_link, h]
      · simp [check_wm_link, h]
  · intro url kind; exact ⟨rfl, rfl⟩
  · intro env d order clock hstop htmo
    exact collectBatch_no_stop env d hstop htmo order clock

theorem C8_success_append_witness :
    (check_link false "u" (ProbeResp.status 200)).append = (if 200 = 200 then some "u" else none) ∧
    (check_wm_link false "u" (ProbeResp.status 200)).result =
      (if 200 = 200 then some "u" else none) :=
  C8_success_append.1 "u" 200

lemma collectBatch_incorporated (env : WmEnv) (d : Nat) :
    ∀ k (order : List Nat) clock,
      (∀ j, j < k → env.stop (clock + j) = false ∧ env.tmo (clock + j) = false) →
      ∀ u, u ∈ (order.take k).filterMap
          (fun s => (check_wm_link (env.wstop d s) (wmUrl env d s) (env.resp d s)).result) →
        u ∈ (collectBatch env d order clock).links := by
  intro k
  induction k with
  | zero => intro order clock _ u hu; simp at hu
  | succ k ih =>
      intro order clock hpoll u hu
      cases order with
      | nil => simp at hu
      | cons sec rest =>
          have h0 := hpoll 0 (by omega)
          rw [Nat.add_zero] at h0
          have hshift : ∀ j, j < k →
              env.stop (clock + 1 + j) = false ∧ env.tmo (clock + 1 + j) = false := by
            intro j hj
            have := hpoll (j + 1) (by omega)
            rwa [show clock + (j + 1) = clock + 1 + j by omega] at this
          simp only [collectBatch, h0.1, h0.2, Bool.or_self, Bool.false_eq_true, if_false]
          rw [List.take_succ_cons, List.filterMap_cons] at hu
          cases hres : (check_wm_link (env.wstop d sec) (wmUrl env d sec)
              (env.resp d sec)).result with
          | none =>
              rw [hres] at hu
              exact ih rest (clock + 1) hshift u hu
          | some u0 =>
              rw [hres] at hu
              rcases List.mem_cons.mp hu with rfl | hu
              · exact List.mem_cons_self _ _
              · exact List.mem_cons_of_mem _ (ih rest (clock + 1) hshift u hu)

/-- C9: once the stop flag is observed no new probe is issued — a worker that
sees the flag returns without probing (both variants), a set flag at the
while-loop poll prevents creation of any further date batch, and a set flag
at a collection poll stops incorporation immediately; while completions
arriving while the flag was still clear are incorporated: every success
among the first `k` completions is in the appended links when the first `k`
polls saw no stop and no timeout. -/
theorem C9_stop_cancellation :
    (∀ url resp, (check_link true url resp).probed = false) ∧
    (∀ url resp, (check_wm_link true url resp).probed = false) ∧
    (∀ env st et ed fuel current clock, env.stop clock = true →
       (wmLoop env st et ed fuel current clock).submitted = []) ∧
    (∀ env d order clock, env.stop clock = true →
       (collectBatch env d order clock).collected = []) ∧
    (∀ env d k (order : List Nat) clock,
       (∀ j, j < k → env.stop (clock + j) = false ∧ env.tmo (clock + j) = false) →
       ∀ u, u ∈ (order.take k).filterMap
           (fun s => (check_wm_link (env.wstop d s) (wmUrl env d s) (env.resp d s)).result) →
         u ∈ (collectBatch env d order clock).links) := by
  refine ⟨fun url resp => rfl, fun url resp => rfl, ?_, ?_, ?_⟩
  · intro env st et ed fuel current clock hs
    cases fuel with
    | zero => rw [wmLoop_zero]
    | succ fuel =>
        by_cases h1 : ed < current
        · rw [wmLoop_exit env st et ed fuel current clock h1]
        · rw [wmLoop_stop env st et ed fuel current clock h1 hs]
  · intro env d order clock hs
    cases order with
    | nil => rfl
    | cons sec rest => simp only [collectBatch, hs, Bool.true_or, if_true]
  · intro env d k order clock hpoll u hu
    exact collectBatch_incorporated env d k order clock hpoll u hu

theorem C9_stop_cancellation_witness :
    (wmLoop stopMidEnv ⟨0, 0, 0⟩ ⟨0, 0, 0⟩ 738886 5 738880 2).submitted = [] :=
  C9_stop_cancellation.2.2.1 stopMidEnv ⟨0, 0, 0⟩ ⟨0, 0, 0⟩ 738886 5 738880 2 rfl

lemma retrySteps_le (p : RetryPolicy) (responses : Nat → ProbeResp) :
    ∀ r i, retrySteps p responses r i ≤ i + r + 1 := by
  intro r
  induction r with
  | zero => intro i; simp [retrySteps]
  | succ r ih =>
      intro i
      simp only [retrySteps]
      by_cases h : retryable p (responses i) = false
      · rw [if_pos h]; omega
      · rw [if_neg h]
        have := ih (i + 1)
        omega

lemma retrySteps_all_retryable (p : RetryPolicy) (responses : Nat → ProbeResp)
    (hall : ∀ i, retryable p (responses i) = true) :
    ∀ r i, retrySteps p responses r i = i + r + 1 := by
  intro r
  induction r with
  | zero => intro i; simp [retrySteps]
  | succ r ih =>
      intro i
      simp only [retrySteps]
      rw [if_neg (by rw [hall i]; exact fun h => by cases h)]
      rw [ih (i + 1)]
      omega

/-- C6 counterexample: HTTP 501 is in the 5xx family, yet the modified
variant's policy treats it as non-transient — a session receiving 501 every
time performs a single attempt and no retry; meanwhile a constant-503 probe
under the resumable variant's policy performs 4 attempts, not at most 3. -/
theorem C6_counterexample :
    (500 ≤ 501 ∧ 501 ≤ 599 ∧
     retryable modified_retry_policy (ProbeResp.status 501) = false ∧
     attemptsMade modified_retry_policy (fun _ => ProbeResp.status 501) = 1) ∧
    attemptsMade wm_retry_policy (fun _ => ProbeResp.status 503) = 4 :=
  ⟨⟨by omega, by omega, rfl, rfl⟩, rfl⟩

/-- C6 (amended): retries happen only for transient outcomes — connection
errors and forcelisted statuses; the resumable variant's transient statuses
are exactly the 5xx family, while the modified variant's are exactly
{500, 502, 503, 504}; a non-transient first outcome returns after exactly
one attempt, and `Retry(total=3)` allows up to 3 retries after the initial
request, i.e. at most 4 attempts, reached when every outcome is transient. -/
theorem C6_retry_policy :
    (∀ code, retryable wm_retry_policy (ProbeResp.status code) = true ↔
       500 ≤ code ∧ code < 600) ∧
    (∀ code, retryable modified_retry_policy (ProbeResp.status code) = true ↔
       code = 500 ∨ code = 502 ∨ code = 503 ∨ code = 504) ∧
    (∀ p : RetryPolicy, ∀ kind, retryable p (ProbeResp.exn kind) = true) ∧
    (∀ p : RetryPolicy, ∀ responses, retryable p (responses 0) = false →
       attemptsMade p responses = 1 ∧ retryOutcome p responses p.total 0 = some (responses 0)) ∧
    (∀ p : RetryPolicy, ∀ responses, attemptsMade p responses ≤ p.total + 1) ∧
    (∀ responses, (∀ i, retryable wm_retry_policy (responses i) = true) →
       attemptsMade wm_retry_policy responses = 4) := by
  refine ⟨?_, ?_, fun p kind => rfl, ?_, ?_, ?_⟩
  · intro code
    simp [retryable, wm_retry_policy, List.mem_range'_1]
  · intro code
    simp [retryable, modified_retry_policy]
  · intro p responses h
    constructor
    · unfold attemptsMade
      cases ht : p.total with
      | zero => simp [retrySteps, h]
      | succ r => simp [retrySteps, h]
    · cases ht : p.total with
      | zero => simp [retryOutcome, h]
      | succ r => simp [retryOutcome, h]
  · intro p responses
    have := retrySteps_le p responses p.total 0
    unfold attemptsMade
    omega
  · intro responses hall
    unfold attemptsMade
    rw [retrySteps_all_retryable wm_retry_policy responses hall]
    rfl

theorem C6_retry_policy_witness :
    retryable wm_retry_policy (ProbeResp.status 555) = true ↔ 500 ≤ 555 ∧ 555 < 600 :=
  C6_retry_policy.1 555
